import Mathlib

/-!
Verification of the admission-webhook protocol adapter in
`cmd/image-registry-mutator/admission_controller.go`.

The Go file implements `doServeAdmitFunc` (HTTP validation, envelope
decoding, callback invocation, response encoding) and `serveAdmitFunc`
(the error-handling wrapper). We embed it shallowly: the HTTP request is
a record of the inputs the code inspects, the `http.ResponseWriter` is
explicit state with net/http's semantics (the first `WriteHeader` wins,
a `Write` without a prior `WriteHeader` implies status 200), the k8s
`universalDeserializer` is a function parameter, and `encoding/json`'s
treatment of `[]patchOperation` is modelled on a JSON value AST
(`Jx`), with JSON numbers as exact integers. Go `nil` slices and `nil`
pointers become `Option`.
-/

namespace ImageMutator

/-- A JSON value, as `encoding/json` sees the `interface\x7b\x7d`-typed
`Value` field of a patch operation: `null`, booleans, numbers, strings,
arrays, objects. A Go `nil` interface corresponds to `Jx.null`. -/
inductive Jx where
  | null
  | bool (b : Bool)
  | num (n : Int)
  | str (s : String)
  | arr (elems : List Jx)
  | obj (fields : List (String × Jx))

/-- `true` exactly on `Jx.null` (the Go `nil` interface value). -/
def Jx.isNull : Jx → Bool
  | .null => true
  | _ => false

/-- One hex digit, lower case, as `encoding/json` writes `\u00XX` escapes. -/
def hexDigit (n : Nat) : String :=
  if n < 10 then String.singleton (Char.ofNat (48 + n))
  else String.singleton (Char.ofNat (87 + n))

/-- Escaping of one character inside a JSON string literal, following Go's
`encoding/json` default encoder: `"`, `\`, the named control escapes,
`\u00XX` for other control characters, and HTML-safe escaping of
`<`, `>`, `&`. -/
def escapeJsonChar (c : Char) : String :=
  if c = '"' then "\\\""
  else if c = '\\' then "\\\\"
  else if c = '\n' then "\\n"
  else if c = '\r' then "\\r"
  else if c = '\t' then "\\t"
  else if c = '<' then "\\u003c"
  else if c = '>' then "\\u003e"
  else if c = '&' then "\\u0026"
  else if c.toNat < 32 then "\\u00" ++ hexDigit (c.toNat / 16) ++ hexDigit (c.toNat % 16)
  else String.singleton c

/-- A JSON string literal for `s`, quotes included. -/
def renderJsonString (s : String) : String :=
  "\"" ++ String.join (s.toList.map escapeJsonChar) ++ "\""

mutual

/-- Compact rendering of a JSON value to its byte/character form, as
`encoding/json` emits it (no whitespace, object fields in the order the
encoder visits them). -/
def Jx.render : Jx → String
  | .null => "null"
  | .bool true => "true"
  | .bool false => "false"
  | .num n => toString n
  | .str s => renderJsonString s
  | .arr elems => "[" ++ Jx.renderElems elems ++ "]"
  | .obj fields => "\x7b" ++ Jx.renderFields fields ++ "\x7d"

/-- Comma-separated rendering of array elements. -/
def Jx.renderElems : List Jx → String
  | [] => ""
  | [x] => x.render
  | x :: y :: rest => x.render ++ "," ++ Jx.renderElems (y :: rest)

/-- Comma-separated rendering of object members. -/
def Jx.renderFields : List (String × Jx) → String
  | [] => ""
  | [(k, v)] => renderJsonString k ++ ":" ++ v.render
  | (k, v) :: y :: rest => renderJsonString k ++ ":" ++ v.render ++ "," ++ Jx.renderFields (y :: rest)

end

/-- patchOperation is an operation of a JSON patch (RFC 6902), as declared
in the Go source: `Op` and `Path` are strings, `Value` is an
`interface\x7b\x7d` JSON value with the `omitempty` tag; the Go `nil`
interface is `Jx.null`. -/
structure patchOperation where
  Op : String
  Path : String
  Value : Jx

/-- `encoding/json` marshaling of one `patchOperation`: an object with the
tagged fields `"op"` and `"path"`, and `"value"` only when the `Value`
interface is non-nil (`omitempty`). -/
def patchOperation.marshalJx (p : patchOperation) : Jx :=
  Jx.obj (("op", Jx.str p.Op) :: ("path", Jx.str p.Path) ::
    (if p.Value.isNull then [] else [("value", p.Value)]))

/-- `json.Marshal` on the Go slice `[]patchOperation`: a `nil` slice
(`none`) marshals to the JSON literal `null`; a slice marshals to the
JSON array of its elements' objects. -/
def jsonMarshalPatchOps : Option (List patchOperation) → Jx
  | none => Jx.null
  | some l => Jx.arr (l.map patchOperation.marshalJx)

/-- Field lookup in a decoded JSON object as `encoding/json` resolves
duplicate keys: the last occurrence wins. -/
def lookupField (fields : List (String × Jx)) (k : String) : Option Jx :=
  fields.foldl (fun acc f => if f.1 = k then some f.2 else acc) none

/-- `json.Unmarshal` of a JSON value into a Go `string` field: an absent
field or JSON `null` leaves the zero value `""`; a JSON string is taken;
any other value is a type error. -/
def decodeStringField : Option Jx → Option String
  | none => some ""
  | some Jx.null => some ""
  | some (Jx.str s) => some s
  | some _ => none

/-- `json.Unmarshal` of one JSON array element into a `patchOperation`:
an object is decoded field by field (unknown fields ignored, absent
fields keep zero values, the absent `value` field keeps Go's `nil`
interface = `Jx.null`); JSON `null` leaves the zero struct; any other
value is a type error. -/
def decodeOp : Jx → Option patchOperation
  | Jx.null => some { Op := "", Path := "", Value := Jx.null }
  | Jx.obj fields => do
      let opStr ← decodeStringField (lookupField fields "op")
      let pathStr ← decodeStringField (lookupField fields "path")
      let v := (lookupField fields "value").getD Jx.null
      pure { Op := opStr, Path := pathStr, Value := v }
  | _ => none

/-- Element-wise decoding of a JSON array's elements into patch
operations, stopping at the first type error, as `json.Unmarshal` does. -/
def decodeOps : List Jx → Option (List patchOperation)
  | [] => some []
  | x :: rest => do
      let p ← decodeOp x
      let ps ← decodeOps rest
      pure (p :: ps)

/-- `json.Unmarshal` of a JSON value into the Go slice
`[]patchOperation`: `null` yields the `nil` slice, an array decodes
element-wise, anything else is a type error. -/
def jsonUnmarshalPatchOps : Jx → Option (Option (List patchOperation))
  | Jx.null => some none
  | Jx.arr elems => (decodeOps elems).map some
  | _ => none

/-- `metav1.Status`: only the `Message` field is set by the adapter. -/
structure Status where
  Message : String

/-- `v1beta1.AdmissionRequest`: the adapter reads only `UID`; the other
fields (kind, object payload, ...) are carried opaquely for the callback. -/
structure AdmissionRequest where
  UID : String
  object : Jx

/-- `v1beta1.AdmissionResponse`: the Go struct's pointer field `Result`
is an `Option`, and the marshaled patch bytes (`Patch []byte`) are
modelled by their JSON value (the byte rendering is `Jx.render`). -/
structure AdmissionResponse where
  UID : String
  Allowed : Bool
  Result : Option Status
  Patch : Option Jx

/-- `v1beta1.AdmissionReview`: both pointer fields may be nil. -/
structure AdmissionReview where
  Request : Option AdmissionRequest
  Response : Option AdmissionResponse

/-- `json.Marshal` of a `metav1.Status`: the inline `ListMeta` renders as
an empty `metadata` object; `message` carries `omitempty`. -/
def Status.marshalJx (st : Status) : Jx :=
  Jx.obj (("metadata", Jx.obj []) ::
    (if st.Message = "" then [] else [("message", Jx.str st.Message)]))

/-- `json.Marshal` of a `v1beta1.AdmissionRequest` (by its json tags;
only `uid` matters to the adapter, the opaque payload is carried under
`object`). -/
def AdmissionRequest.marshalJx (req : AdmissionRequest) : Jx :=
  Jx.obj [("uid", Jx.str req.UID), ("object", req.object)]

/-- `json.Marshal` of a `v1beta1.AdmissionResponse` by its json tags:
`uid,omitempty`, `allowed`, `status,omitempty` (the `Result` field),
`patch,omitempty`. Go renders the `Patch` bytes as a base64 string; we
embed the patch's JSON value itself, since no observable property here
depends on the transport encoding of those bytes. -/
def AdmissionResponse.marshalJx (resp : AdmissionResponse) : Jx :=
  Jx.obj (
    (if resp.UID = "" then [] else [("uid", Jx.str resp.UID)]) ++
    [("allowed", Jx.bool resp.Allowed)] ++
    (match resp.Result with
     | none => []
     | some st => [("status", st.marshalJx)]) ++
    (match resp.Patch with
     | none => []
     | some p => [("patch", p)]))

/-- `json.Marshal` of a `v1beta1.AdmissionReview`: `request` and
`response` carry `omitempty` and are omitted when nil; the empty
`TypeMeta` renders nothing. -/
def AdmissionReview.marshalJx (ar : AdmissionReview) : Jx :=
  Jx.obj (
    (match ar.Request with
     | none => []
     | some req => [("request", req.marshalJx)]) ++
    (match ar.Response with
     | none => []
     | some resp => [("response", resp.marshalJx)]))

/-- The response bytes `json.Marshal(&admissionReviewResponse)` returns:
the compact rendering of the envelope's JSON value. For the struct
shapes involved (strings, bool, pointer-to-struct, bytes) this marshal
cannot fail in Go, so it is total here. -/
def marshalReview (ar : AdmissionReview) : String :=
  (ar.marshalJx).render

/-- The inputs of `doServeAdmitFunc` that the code inspects on
`r *http.Request`: the method, the outcome of `ioutil.ReadAll(r.Body)`
(bytes as a string, or a read error), and the value of
`r.Header.Get("Content-Type")` (the empty string when absent). -/
structure HttpRequest where
  method : String
  bodyRead : Except String String
  contentType : String

/-- `http.ResponseWriter` state: the status code committed so far (none
until the header is written) and the accumulated body bytes. -/
structure ResponseWriter where
  status : Option Nat
  body : String

/-- `w.WriteHeader(code)`: net/http commits the first call and ignores a
superfluous second one. -/
def ResponseWriter.writeHeader (w : ResponseWriter) (code : Nat) : ResponseWriter :=
  match w.status with
  | none => { w with status := some code }
  | some _ => w

/-- `w.Write(s)`: appends body bytes; if no header was written yet,
net/http implicitly commits status 200. -/
def ResponseWriter.write (w : ResponseWriter) (s : String) : ResponseWriter :=
  { status := some (w.status.getD 200), body := w.body ++ s }

/-- The `http.ResponseWriter` handed to the handler at the start of an
exchange: no status committed, no body. -/
def freshWriter : ResponseWriter := { status := none, body := "" }

/-- `const jsonContentType` from the Go source. -/
def jsonContentType : String := "application/json"

/-- `admitFunc`: the decision callback. Go returns the pair
`([]patchOperation, error)`; the slice may be nil (`none`) and the error
may be nil (`none`). -/
def admitFunc : Type := AdmissionRequest → Option (List patchOperation) × Option String

/-- The `universalDeserializer.Decode` collaborator, as the adapter uses
it: body bytes to either a decode error or an `AdmissionReview`. -/
def Deserializer : Type := String → Except String AdmissionReview

/-- `doServeAdmitFunc`, instrumented: it returns the writer state, the
Go result (`error`, or the response envelope paired with its marshaled
bytes), and the trace of arguments the decision callback was invoked
with, in order. The branches follow the Go source line by line:
method check (405), body read (400), content-type check (400), envelope
decode (400), nil inner request (400); then the response envelope is
built with the request's UID, the callback is invoked once, and either
the error message is attached with `Allowed = false`, or the marshaled
patch is attached with `Allowed = true`. -/
def doServeAdmitFuncT (w : ResponseWriter) (r : HttpRequest)
    (deser : Deserializer) (af : admitFunc) :
    ResponseWriter × Except String (AdmissionReview × String) × List AdmissionRequest :=
  if r.method ≠ "POST" then
    (w.writeHeader 405,
     Except.error ("invalid method " ++ r.method ++ ", only POST requests are allowed"), [])
  else
    match r.bodyRead with
    | Except.error e =>
        (w.writeHeader 400, Except.error ("could not read request body: " ++ e), [])
    | Except.ok body =>
      if r.contentType ≠ jsonContentType then
        (w.writeHeader 400,
         Except.error ("unsupported content type " ++ r.contentType ++ ", only " ++
           jsonContentType ++ " is supported"), [])
      else
        match deser body with
        | Except.error e =>
            (w.writeHeader 400, Except.error ("could not deserialize request: " ++ e), [])
        | Except.ok admissionReviewReq =>
          match admissionReviewReq.Request with
          | none =>
              (w.writeHeader 400, Except.error "malformed admission review: request is nil", [])
          | some req =>
            let baseResponse : AdmissionResponse :=
              { UID := req.UID, Allowed := false, Result := none, Patch := none }
            match af req with
            | (_, some msg) =>
                let out : AdmissionReview :=
                  { Request := none,
                    Response := some { baseResponse with
                      Allowed := false, Result := some { Message := msg } } }
                (w, Except.ok (out, marshalReview out), [req])
            | (patchOps, none) =>
                let patchJx := jsonMarshalPatchOps patchOps
                let out : AdmissionReview :=
                  { Request := none,
                    Response := some { baseResponse with
                      Allowed := true, Patch := some patchJx } }
                (w, Except.ok (out, marshalReview out), [req])

/-- `doServeAdmitFunc` as the Go signature has it: writer state and
`([]byte, error)`. The instrumentation (envelope, call trace) is
projected away. -/
def doServeAdmitFunc (w : ResponseWriter) (r : HttpRequest)
    (deser : Deserializer) (af : admitFunc) :
    ResponseWriter × Except String String :=
  let (w', res, _) := doServeAdmitFuncT w r deser af
  (w', res.map (fun p => p.2))

/-- `serveAdmitFunc`: calls the adapter; on error sets HTTP 500 (a no-op
when a status was already committed) and writes the error text; on
success writes the produced bytes. Logging has no observable effect on
the exchange and is not modelled. -/
def serveAdmitFunc (w : ResponseWriter) (r : HttpRequest)
    (deser : Deserializer) (af : admitFunc) : ResponseWriter :=
  match doServeAdmitFunc w r deser af with
  | (w', Except.error e) => (w'.writeHeader 500).write e
  | (w', Except.ok bytes) => w'.write bytes

/-! ### Round-trip of the patch-operation marshaling -/

/-- A non-nil check that succeeds forces the value to be `Jx.null`. -/
theorem Jx.eq_null_of_isNull : ∀ {v : Jx}, v.isNull = true → v = Jx.null
  | .null, _ => rfl

/-- Decoding the marshaled object of one patch operation recovers it. -/
theorem decodeOp_marshalJx (p : patchOperation) :
    decodeOp p.marshalJx = some p := by
  obtain ⟨opStr, pathStr, v⟩ := p
  by_cases h : v.isNull
  · have hv : v = Jx.null := Jx.eq_null_of_isNull h
    subst hv
    simp +decide [patchOperation.marshalJx, decodeOp, lookupField, decodeStringField, Jx.isNull]
  · simp only [Bool.not_eq_true] at h
    simp +decide [patchOperation.marshalJx, decodeOp, lookupField, decodeStringField, h]

/-- Element-wise decoding inverts element-wise marshaling. -/
theorem decodeOps_map_marshalJx (l : List patchOperation) :
    decodeOps (l.map patchOperation.marshalJx) = some l := by
  induction l with
  | nil => rfl
  | cons p rest ih =>
      simp [decodeOps, decodeOp_marshalJx, ih]

/-- `json.Unmarshal` inverts `json.Marshal` on `[]patchOperation`,
including the nil slice. -/
theorem jsonUnmarshalPatchOps_jsonMarshalPatchOps
    (ops : Option (List patchOperation)) :
    jsonUnmarshalPatchOps (jsonMarshalPatchOps ops) = some ops := by
  cases ops with
  | none => rfl
  | some l =>
      simp [jsonMarshalPatchOps, jsonUnmarshalPatchOps, decodeOps_map_marshalJx]

/-! ### Sample concrete inputs used by the witnesses -/

/-- A sample decoded inner request. -/
def sampleRequest : AdmissionRequest := { UID := "abc-1", object := Jx.null }

/-- A sample decoded envelope with a non-nil inner request. -/
def sampleReview : AdmissionReview := { Request := some sampleRequest, Response := none }

/-- A sample deserializer that accepts every body as `sampleReview`. -/
def sampleDeser : Deserializer := fun _ => Except.ok sampleReview

/-- A sample valid POST request. -/
def samplePost : HttpRequest :=
  { method := "POST", bodyRead := Except.ok "body", contentType := "application/json" }

/-- The spec's sample patch operation. -/
def sampleAdd : patchOperation := { Op := "add", Path := "/spec/foo", Value := Jx.str "bar" }

/-- A callback that allows with one patch operation. -/
def afAllow : admitFunc := fun _ => (some [sampleAdd], none)

/-- A callback that denies with a message. -/
def afDeny : admitFunc := fun _ => (none, some "image not allowed")

/-- A callback that allows with a nil patch slice. -/
def afNilOps : admitFunc := fun _ => (none, none)

/-- A very long UID (1000 characters), for the UID edge-case witness. -/
def longUID : String := String.mk (List.replicate 1000 'x')

/-- A deserializer yielding an inner request whose UID is `longUID`. -/
def longUIDDeser : Deserializer := fun _ =>
  Except.ok { Request := some { UID := longUID, object := Jx.null }, Response := none }

/-! ### The claims -/

/-- C6: for every request whose method is not POST, `doServeAdmitFunc`
commits status 405 and returns an error, and the whole result is
independent of the body, the content type, the deserializer and the
callback (so nothing further is read, decoded or invoked). -/
theorem non_post_405 (w : ResponseWriter) (r : HttpRequest)
    (deser : Deserializer) (af : admitFunc) (hm : r.method ≠ "POST") :
    doServeAdmitFuncT w r deser af =
      (w.writeHeader 405,
       Except.error ("invalid method " ++ r.method ++ ", only POST requests are allowed"),
       []) := by
  simp [doServeAdmitFuncT, hm]

/-- Witness for C6: a GET request is rejected with 405 and an empty call
trace, whatever the body, deserializer and callback. -/
theorem non_post_405_witness :
    doServeAdmitFuncT freshWriter { samplePost with method := "GET" } sampleDeser afAllow =
      ({ status := some 405, body := "" },
       Except.error "invalid method GET, only POST requests are allowed",
       []) :=
  non_post_405 freshWriter { samplePost with method := "GET" } sampleDeser afAllow
    (by decide)

/-- C8: for every POST request with a readable body whose Content-Type
header is not exactly `application/json`, `doServeAdmitFunc` commits
status 400 and returns an error, and the result is independent of the
deserializer and the callback (no envelope decode, no invocation). -/
theorem content_type_400 (w : ResponseWriter) (r : HttpRequest)
    (deser : Deserializer) (af : admitFunc) (body : String)
    (hm : r.method = "POST") (hb : r.bodyRead = Except.ok body)
    (hc : r.contentType ≠ jsonContentType) :
    doServeAdmitFuncT w r deser af =
      (w.writeHeader 400,
       Except.error ("unsupported content type " ++ r.contentType ++ ", only " ++
         jsonContentType ++ " is supported"),
       []) := by
  simp [doServeAdmitFuncT, hm, hb, hc]

/-- Witness for C8: a POST with `application/json; charset=utf-8`
(a media-type parameter, not the exact string) is rejected with 400. -/
theorem content_type_400_witness :
    doServeAdmitFuncT freshWriter
        { samplePost with contentType := "application/json; charset=utf-8" }
        sampleDeser afAllow =
      ({ status := some 400, body := "" },
       Except.error ("unsupported content type application/json; charset=utf-8, " ++
         "only application/json is supported"),
       []) :=
  content_type_400 freshWriter
    { samplePost with contentType := "application/json; charset=utf-8" }
    sampleDeser afAllow "body" rfl rfl (by decide)

/-- C7: for every POST request with readable body and exact JSON content
type whose body decodes to an envelope with a nil inner request,
`doServeAdmitFunc` commits status 400 and returns the malformed-review
error, with an empty callback trace. -/
theorem nil_request_400 (w : ResponseWriter) (r : HttpRequest)
    (deser : Deserializer) (af : admitFunc) (body : String)
    (review : AdmissionReview)
    (hm : r.method = "POST") (hb : r.bodyRead = Except.ok body)
    (hc : r.contentType = jsonContentType)
    (hd : deser body = Except.ok review) (hr : review.Request = none) :
    doServeAdmitFuncT w r deser af =
      (w.writeHeader 400,
       Except.error "malformed admission review: request is nil",
       []) := by
  simp [doServeAdmitFuncT, hm, hb, hc, hd, hr, jsonContentType]

/-- Witness for C7: a valid POST whose body decodes to an envelope with
`Request = none` gets 400 and no callback invocation. -/
theorem nil_request_400_witness :
    doServeAdmitFuncT freshWriter samplePost
        (fun _ => Except.ok { Request := none, Response := none }) afAllow =
      ({ status := some 400, body := "" },
       Except.error "malformed admission review: request is nil",
       []) :=
  nil_request_400 freshWriter samplePost
    (fun _ => Except.ok { Request := none, Response := none }) afAllow
    "body" { Request := none, Response := none } rfl rfl rfl rfl rfl

/-- C1: for every request passing validation and decoding, the response
envelope's UID equals the decoded request's UID — for every decision
callback (the UID is fixed by the envelope alone, before and
independently of the callback's result) and for every UID value. -/
theorem uid_echoed (r : HttpRequest) (deser : Deserializer) (af : admitFunc)
    (body : String) (review : AdmissionReview) (req : AdmissionRequest)
    (hm : r.method = "POST") (hb : r.bodyRead = Except.ok body)
    (hc : r.contentType = jsonContentType)
    (hd : deser body = Except.ok review) (hr : review.Request = some req) :
    ∃ out bytes,
      (doServeAdmitFuncT freshWriter r deser af).2.1 = Except.ok (out, bytes) ∧
      ∃ resp, out.Response = some resp ∧ resp.UID = req.UID := by
  rcases haf : af req with ⟨ops, oerr⟩
  cases oerr <;>
    simp [doServeAdmitFuncT, hm, hb, hc, hd, hr, haf, jsonContentType]

/-- Witness for C1: with a valid request whose decoded UID is a
1000-character string, the response envelope carries that same UID
(the callback here denies, showing UID echo is independent of the
decision). -/
theorem uid_echoed_witness :
    ∃ out bytes,
      (doServeAdmitFuncT freshWriter samplePost longUIDDeser afDeny).2.1 =
        Except.ok (out, bytes) ∧
      ∃ resp, out.Response = some resp ∧ resp.UID = longUID :=
  uid_echoed samplePost longUIDDeser afDeny "body"
    { Request := some { UID := longUID, object := Jx.null }, Response := none }
    { UID := longUID, object := Jx.null } rfl rfl rfl rfl rfl

/-- C2: for every valid request where the callback returns `(nil, err)`,
the adapter succeeds (no error is returned, so the wrapper's non-200
path is never taken): the exchange completes via `Write` alone with the
implicit success status 200, the response has `Allowed = false`, and the
denial message equals the error's text. -/
theorem deny_is_http_200 (r : HttpRequest) (deser : Deserializer) (af : admitFunc)
    (body : String) (review : AdmissionReview) (req : AdmissionRequest) (msg : String)
    (hm : r.method = "POST") (hb : r.bodyRead = Except.ok body)
    (hc : r.contentType = jsonContentType)
    (hd : deser body = Except.ok review) (hr : review.Request = some req)
    (haf : af req = (none, some msg)) :
    ∃ out bytes,
      (doServeAdmitFuncT freshWriter r deser af).2.1 = Except.ok (out, bytes) ∧
      (∃ resp, out.Response = some resp ∧ resp.Allowed = false ∧
        resp.Result = some { Message := msg } ∧ resp.Patch = none) ∧
      serveAdmitFunc freshWriter r deser af = { status := some 200, body := bytes } := by
  simp only [doServeAdmitFuncT, doServeAdmitFunc, serveAdmitFunc, hm, hb, hc, hd, hr, haf]
  exact ⟨_, _, rfl, ⟨_, rfl, rfl, rfl, rfl⟩, rfl⟩

/-- Witness for C2: the spec's denial scenario — callback returns the
error `image not allowed` — yields a 200 exchange with `allowed:false`
and that message. -/
theorem deny_is_http_200_witness :
    ∃ out bytes,
      (doServeAdmitFuncT freshWriter samplePost sampleDeser afDeny).2.1 =
        Except.ok (out, bytes) ∧
      (∃ resp, out.Response = some resp ∧ resp.Allowed = false ∧
        resp.Result = some { Message := "image not allowed" } ∧ resp.Patch = none) ∧
      serveAdmitFunc freshWriter samplePost sampleDeser afDeny =
        { status := some 200, body := bytes } :=
  deny_is_http_200 samplePost sampleDeser afDeny "body" sampleReview sampleRequest
    "image not allowed" rfl rfl rfl rfl rfl rfl

/-- C3: for every valid request where the callback returns `(ops, nil)`,
the response has `Allowed = true` and its patch is the marshaling of
`ops`, and unmarshaling that patch recovers exactly `ops` (the
round-trip law), for every list of patch operations. -/
theorem patch_round_trip (r : HttpRequest) (deser : Deserializer) (af : admitFunc)
    (body : String) (review : AdmissionReview) (req : AdmissionRequest)
    (ops : List patchOperation)
    (hm : r.method = "POST") (hb : r.bodyRead = Except.ok body)
    (hc : r.contentType = jsonContentType)
    (hd : deser body = Except.ok review) (hr : review.Request = some req)
    (haf : af req = (some ops, none)) :
    ∃ out bytes,
      (doServeAdmitFuncT freshWriter r deser af).2.1 = Except.ok (out, bytes) ∧
      ∃ resp, out.Response = some resp ∧ resp.Allowed = true ∧
        resp.Patch = some (jsonMarshalPatchOps (some ops)) ∧
        jsonUnmarshalPatchOps (jsonMarshalPatchOps (some ops)) = some (some ops) := by
  simp [doServeAdmitFuncT, hm, hb, hc, hd, hr, haf, jsonContentType,
    jsonUnmarshalPatchOps_jsonMarshalPatchOps (some ops)]

/-- Witness for C3: the spec's allow scenario — one `add` operation at
`/spec/foo` with value `"bar"` — round-trips through the patch field. -/
theorem patch_round_trip_witness :
    ∃ out bytes,
      (doServeAdmitFuncT freshWriter samplePost sampleDeser afAllow).2.1 =
        Except.ok (out, bytes) ∧
      ∃ resp, out.Response = some resp ∧ resp.Allowed = true ∧
        resp.Patch = some (jsonMarshalPatchOps (some [sampleAdd])) ∧
        jsonUnmarshalPatchOps (jsonMarshalPatchOps (some [sampleAdd])) =
          some (some [sampleAdd]) :=
  patch_round_trip samplePost sampleDeser afAllow "body" sampleReview sampleRequest
    [sampleAdd] rfl rfl rfl rfl rfl rfl

/-- C4: for every valid request, whatever the callback returns, the
encoded response carries exactly one outcome: either `Allowed = true`
with a patch attached and no denial message, or `Allowed = false` with a
denial message attached and no patch — and never the other one as well. -/
theorem outcome_exclusive (r : HttpRequest) (deser : Deserializer) (af : admitFunc)
    (body : String) (review : AdmissionReview) (req : AdmissionRequest)
    (hm : r.method = "POST") (hb : r.bodyRead = Except.ok body)
    (hc : r.contentType = jsonContentType)
    (hd : deser body = Except.ok review) (hr : review.Request = some req) :
    ∃ out bytes,
      (doServeAdmitFuncT freshWriter r deser af).2.1 = Except.ok (out, bytes) ∧
      ∃ resp, out.Response = some resp ∧
        (((resp.Allowed = true ∧ resp.Result = none ∧ ∃ pj, resp.Patch = some pj) ∧
          ¬(resp.Allowed = false ∧ resp.Patch = none ∧ ∃ st, resp.Result = some st)) ∨
         ((resp.Allowed = false ∧ resp.Patch = none ∧ ∃ st, resp.Result = some st) ∧
          ¬(resp.Allowed = true ∧ resp.Result = none ∧ ∃ pj, resp.Patch = some pj))) := by
  rcases haf : af req with ⟨ops, oerr⟩
  cases oerr <;>
    simp [doServeAdmitFuncT, hm, hb, hc, hd, hr, haf, jsonContentType]

/-- Witness for C4: on the denial scenario the response is exclusively
the deny-with-message outcome. -/
theorem outcome_exclusive_witness :
    ∃ out bytes,
      (doServeAdmitFuncT freshWriter samplePost sampleDeser afDeny).2.1 =
        Except.ok (out, bytes) ∧
      ∃ resp, out.Response = some resp ∧
        (((resp.Allowed = true ∧ resp.Result = none ∧ ∃ pj, resp.Patch = some pj) ∧
          ¬(resp.Allowed = false ∧ resp.Patch = none ∧ ∃ st, resp.Result = some st)) ∨
         ((resp.Allowed = false ∧ resp.Patch = none ∧ ∃ st, resp.Result = some st) ∧
          ¬(resp.Allowed = true ∧ resp.Result = none ∧ ∃ pj, resp.Patch = some pj))) :=
  outcome_exclusive samplePost sampleDeser afDeny "body" sampleReview sampleRequest
    rfl rfl rfl rfl rfl

/-- C10: for every valid request where the callback returns the nil
slice with nil error, the adapter still succeeds with `Allowed = true`,
and the attached patch is the marshaling of the nil slice, whose bytes
are the JSON literal `null` — not the empty array `[]`. -/
theorem nil_ops_marshal_null (r : HttpRequest) (deser : Deserializer) (af : admitFunc)
    (body : String) (review : AdmissionReview) (req : AdmissionRequest)
    (hm : r.method = "POST") (hb : r.bodyRead = Except.ok body)
    (hc : r.contentType = jsonContentType)
    (hd : deser body = Except.ok review) (hr : review.Request = some req)
    (haf : af req = (none, none)) :
    ∃ out bytes,
      (doServeAdmitFuncT freshWriter r deser af).2.1 = Except.ok (out, bytes) ∧
      ∃ resp, out.Response = some resp ∧ resp.Allowed = true ∧
        resp.Patch = some (jsonMarshalPatchOps none) ∧
        Jx.render (jsonMarshalPatchOps none) = "null" ∧
        Jx.render (jsonMarshalPatchOps (some [])) = "[]" ∧
        ("null" : String) ≠ "[]" := by
  simp [doServeAdmitFuncT, hm, hb, hc, hd, hr, haf, jsonContentType]
  constructor
  · rfl
  · decide

/-- Witness for C10: a callback returning `(nil, nil)` on the sample
valid request produces `allowed:true` with patch bytes `null`. -/
theorem nil_ops_marshal_null_witness :
    ∃ out bytes,
      (doServeAdmitFuncT freshWriter samplePost sampleDeser afNilOps).2.1 =
        Except.ok (out, bytes) ∧
      ∃ resp, out.Response = some resp ∧ resp.Allowed = true ∧
        resp.Patch = some (jsonMarshalPatchOps none) ∧
        Jx.render (jsonMarshalPatchOps none) = "null" ∧
        Jx.render (jsonMarshalPatchOps (some [])) = "[]" ∧
        ("null" : String) ≠ "[]" :=
  nil_ops_marshal_null samplePost sampleDeser afNilOps "body" sampleReview sampleRequest
    rfl rfl rfl rfl rfl rfl

/-- C5: for every HTTP request, writer state, deserializer and callback,
the callback-invocation trace of `doServeAdmitFunc` has length at most
one; it is nonempty only when the whole validation/decode pipeline
succeeded with a non-null inner request (and then it is exactly that
request, once); and on every successful pipeline it is exactly one
invocation. -/
theorem callback_once (w : ResponseWriter) (r : HttpRequest)
    (deser : Deserializer) (af : admitFunc) :
    ((doServeAdmitFuncT w r deser af).2.2).length ≤ 1 ∧
    ((doServeAdmitFuncT w r deser af).2.2 ≠ [] →
      r.method = "POST" ∧ r.contentType = jsonContentType ∧
      ∃ body review req, r.bodyRead = Except.ok body ∧
        deser body = Except.ok review ∧ review.Request = some req ∧
        (doServeAdmitFuncT w r deser af).2.2 = [req]) ∧
    (∀ body review req, r.method = "POST" → r.bodyRead = Except.ok body →
      r.contentType = jsonContentType → deser body = Except.ok review →
      review.Request = some req →
      (doServeAdmitFuncT w r deser af).2.2 = [req]) := by
  by_cases hm : r.method = "POST"
  · rcases hb : r.bodyRead with e | body
    · refine ⟨?_, ?_, ?_⟩
      · simp [doServeAdmitFuncT, hm, hb]
      · simp [doServeAdmitFuncT, hm, hb]
      · intro body' review' req' _ hb' _ _ _
        cases hb'
    · by_cases hc : r.contentType = jsonContentType
      · rcases hd : deser body with e | review
        · refine ⟨?_, ?_, ?_⟩
          · simp [doServeAdmitFuncT, hm, hb, hc, hd]
          · simp [doServeAdmitFuncT, hm, hb, hc, hd]
          · intro body' review' req' _ hb' _ hd' _
            injection hb' with hb2; subst hb2
            rw [hd] at hd'; cases hd'
        · rcases hr : review.Request with _ | req
          · refine ⟨?_, ?_, ?_⟩
            · simp [doServeAdmitFuncT, hm, hb, hc, hd, hr]
            · simp [doServeAdmitFuncT, hm, hb, hc, hd, hr]
            · intro body' review' req' _ hb' _ hd' hr'
              injection hb' with hb2; subst hb2
              rw [hd] at hd'; injection hd' with hd2; subst hd2
              rw [hr] at hr'; cases hr'
          · have key : (doServeAdmitFuncT w r deser af).2.2 = [req] := by
              rcases haf : af req with ⟨ops, oerr⟩
              cases oerr <;> simp [doServeAdmitFuncT, hm, hb, hc, hd, hr, haf]
            refine ⟨by rw [key]; simp,
              fun _ => ⟨hm, hc, body, review, req, rfl, hd, hr, key⟩, ?_⟩
            intro body' review' req' _ hb' _ hd' hr'
            injection hb' with hb2; subst hb2
            rw [hd] at hd'; injection hd' with hd2; subst hd2
            rw [hr] at hr'; injection hr' with hr2; subst hr2
            exact key
      · refine ⟨?_, ?_, ?_⟩
        · simp [doServeAdmitFuncT, hm, hb, hc]
        · simp [doServeAdmitFuncT, hm, hb, hc]
        · intro body' review' req' _ _ hc' _ _
          exact absurd hc' hc
  · refine ⟨?_, ?_, ?_⟩
    · simp [doServeAdmitFuncT, hm]
    · simp [doServeAdmitFuncT, hm]
    · intro body' review' req' hm' _ _ _ _
      exact absurd hm' hm

/-- Witness for C5: on the sample valid request the callback is invoked
exactly once, with the decoded inner request. -/
theorem callback_once_witness :
    (doServeAdmitFuncT freshWriter samplePost sampleDeser afAllow).2.2 = [sampleRequest] :=
  (callback_once freshWriter samplePost sampleDeser afAllow).2.2
    "body" sampleReview sampleRequest rfl rfl rfl rfl rfl

/-- C9: for every request, the wrapper `serveAdmitFunc` always sends a
response: if the adapter returned an error, the observed status is the
code the adapter had already committed (which is always the more
specific 405 or 400; the wrapper's own 500 is a backstop that a
committed status overrides) and the body is exactly the error's text;
if the adapter succeeded, its produced bytes are written verbatim with
the implicit status 200. -/
theorem wrapper_backstop (r : HttpRequest) (deser : Deserializer) (af : admitFunc) :
    (∀ e, (doServeAdmitFunc freshWriter r deser af).2 = Except.error e →
      serveAdmitFunc freshWriter r deser af =
        { status := some (((doServeAdmitFunc freshWriter r deser af).1.status).getD 500),
          body := e } ∧
      ((doServeAdmitFunc freshWriter r deser af).1.status = some 405 ∨
       (doServeAdmitFunc freshWriter r deser af).1.status = some 400)) ∧
    (∀ bytes, (doServeAdmitFunc freshWriter r deser af).2 = Except.ok bytes →
      serveAdmitFunc freshWriter r deser af = { status := some 200, body := bytes }) := by
  by_cases hm : r.method = "POST"
  · rcases hb : r.bodyRead with e | body
    · refine ⟨?_, ?_⟩ <;>
        simp [doServeAdmitFuncT, doServeAdmitFunc, serveAdmitFunc, Except.map, hm, hb, freshWriter,
          ResponseWriter.write, ResponseWriter.writeHeader]
    · by_cases hc : r.contentType = jsonContentType
      · rcases hd : deser body with e | review
        · refine ⟨?_, ?_⟩ <;>
            simp [doServeAdmitFuncT, doServeAdmitFunc, serveAdmitFunc, Except.map, hm, hb, hc, hd,
              freshWriter, ResponseWriter.write, ResponseWriter.writeHeader]
        · rcases hr : review.Request with _ | req
          · refine ⟨?_, ?_⟩ <;>
              simp [doServeAdmitFuncT, doServeAdmitFunc, serveAdmitFunc, Except.map, hm, hb, hc, hd, hr,
                freshWriter, ResponseWriter.write, ResponseWriter.writeHeader]
          · rcases haf : af req with ⟨ops, oerr⟩
            cases oerr <;> refine ⟨?_, ?_⟩ <;>
              simp [doServeAdmitFuncT, doServeAdmitFunc, serveAdmitFunc, Except.map, hm, hb, hc, hd, hr,
                haf, freshWriter, ResponseWriter.write, ResponseWriter.writeHeader]
      · refine ⟨?_, ?_⟩ <;>
          simp [doServeAdmitFuncT, doServeAdmitFunc, serveAdmitFunc, Except.map, hm, hb, hc, freshWriter,
            ResponseWriter.write, ResponseWriter.writeHeader]
  · refine ⟨?_, ?_⟩ <;>
      simp [doServeAdmitFuncT, doServeAdmitFunc, serveAdmitFunc, Except.map, hm, freshWriter,
        ResponseWriter.write, ResponseWriter.writeHeader]

/-- Witness for C9: a GET request makes the adapter fail after committing
405, and the wrapper's response carries that 405 (not 500) with the
error text as body. -/
theorem wrapper_backstop_witness :
    serveAdmitFunc freshWriter { samplePost with method := "GET" } sampleDeser afAllow =
      { status := some (((doServeAdmitFunc freshWriter { samplePost with method := "GET" }
          sampleDeser afAllow).1.status).getD 500),
        body := "invalid method GET, only POST requests are allowed" } ∧
    ((doServeAdmitFunc freshWriter { samplePost with method := "GET" }
        sampleDeser afAllow).1.status = some 405 ∨
     (doServeAdmitFunc freshWriter { samplePost with method := "GET" }
        sampleDeser afAllow).1.status = some 400) :=
  (wrapper_backstop { samplePost with method := "GET" } sampleDeser afAllow).1
    "invalid method GET, only POST requests are allowed" rfl

end ImageMutator
